import Mathlib

/-!
Shallow embedding of the Rag_1 repository (src/Rag_test) for specification
checking.  Pure fragments of the Python code are translated into executable
Lean definitions; effectful collaborators (PyPDF2, PyMuPDF, ollama, the web
providers, the filesystem) appear as explicit inputs.  Machine reals from the
source (similarity distances) are modelled as rationals, character strings as
`String` or `List Char`.
-/

/-! ### Configuration constants (src/Rag_test/config.py) -/

/-- `CHUNK_SIZE = 500` — characters per text chunk (config.py). -/
def CHUNK_SIZE : Nat := 500

/-- `MAX_CHAT_HISTORY = 6` — messages kept in prompt context (config.py). -/
def MAX_CHAT_HISTORY : Nat := 6

/-- `SIMILARITY_THRESHOLD = 0.7` (config.py), as a rational. -/
def SIMILARITY_THRESHOLD : ℚ := 7/10

/-- `WEB_SEARCH_ENABLED = True` (config.py). -/
def WEB_SEARCH_ENABLED : Bool := true

/-! ### Text chunking (src/Rag_test/utils/pdf_processor.py, extract_text_from_pdf_bytes)

The page text is modelled as a `List Char`.  Python's `text[i:i+CHUNK_SIZE]`
loop over `range(0, len(text), CHUNK_SIZE)` becomes `chunksOf`, written with
explicit fuel (`fuel = length` suffices whenever the window is positive) so
that it is structurally recursive and computes by `decide`/`rfl`. -/

/-- One step of the slicing loop `for i in range(0, len(text), w)`. -/
def chunksOfAux (w : Nat) : Nat → List Char → List (List Char)
  | _, [] => []
  | 0, _ => []
  | fuel+1, l => l.take w :: chunksOfAux w fuel (l.drop w)

/-- `chunksOf w text` — the successive windows `text[i:i+w]`. -/
def chunksOf (w : Nat) (l : List Char) : List (List Char) :=
  chunksOfAux w l.length l

/-- Python `str.strip()` on a character list (whitespace from both ends). -/
def trimChars (l : List Char) : List Char :=
  ((l.dropWhile Char.isWhitespace).reverse.dropWhile Char.isWhitespace).reverse

/-- The text pass of `extract_text_from_pdf_bytes` for a single page:
`if not text or not text.strip(): continue`, then the window loop keeping
`chunk.strip()` for each window whose strip is non-empty. -/
def extractPageChunks (text : List Char) : List (List Char) :=
  if trimChars text = [] then []
  else
    (chunksOf CHUNK_SIZE text).filterMap fun w =>
      let t := trimChars w
      if t = [] then none else some t

/-! #### Chunking lemmas -/

theorem chunksOfAux_flatten (w : Nat) (hw : 0 < w) :
    ∀ (fuel : Nat) (l : List Char), l.length ≤ fuel →
      (chunksOfAux w fuel l).flatten = l := by
  intro fuel
  induction fuel with
  | zero =>
    intro l hl
    have : l = [] := List.eq_nil_of_length_eq_zero (Nat.le_zero.mp hl)
    subst this; rfl
  | succ n ih =>
    intro l hl
    cases l with
    | nil => rfl
    | cons a as =>
      have hdrop : ((a :: as).drop w).length ≤ n := by
        rw [List.length_drop]
        simp only [List.length_cons] at hl ⊢
        omega
      simp only [chunksOfAux, List.flatten_cons, ih _ hdrop, List.take_append_drop]

theorem chunksOfAux_length (w : Nat) (hw : 0 < w) :
    ∀ (fuel : Nat) (l : List Char), l.length ≤ fuel →
      (chunksOfAux w fuel l).length = (l.length + w - 1) / w := by
  intro fuel
  induction fuel with
  | zero =>
    intro l hl
    have : l = [] := List.eq_nil_of_length_eq_zero (Nat.le_zero.mp hl)
    subst this
    have h0 : (w - 1) / w = 0 := Nat.div_eq_of_lt (by omega)
    simp [chunksOfAux, h0]
  | succ n ih =>
    intro l hl
    cases l with
    | nil =>
      have h0 : (w - 1) / w = 0 := Nat.div_eq_of_lt (by omega)
      simp [chunksOfAux, h0]
    | cons a as =>
      have hdrop : ((a :: as).drop w).length ≤ n := by
        rw [List.length_drop]
        simp only [List.length_cons] at hl ⊢
        omega
      simp only [chunksOfAux, List.length_cons, ih _ hdrop, List.length_drop,
        List.length_cons]
      have hr : as.length + 1 + w - 1 = (as.length + 1 - 1) + w := by omega
      have hstep : (as.length + 1 - w + w - 1) / w = (as.length + 1 - 1) / w := by
        rcases le_or_lt w (as.length + 1) with hle | hlt
        · have h1 : as.length + 1 - w + w - 1 = as.length + 1 - 1 := by omega
          rw [h1]
        · have h1 : as.length + 1 - w = 0 := by omega
          have h2 : (as.length + 1 - 1) / w = 0 := Nat.div_eq_of_lt (by omega)
          rw [h1, h2]
          exact Nat.div_eq_of_lt (by omega)
      rw [hstep, hr, Nat.add_div_right _ hw]

theorem chunksOfAux_size (w : Nat) :
    ∀ (fuel : Nat) (l : List Char), ∀ c ∈ chunksOfAux w fuel l, c.length ≤ w := by
  intro fuel
  induction fuel with
  | zero =>
    intro l c hc
    cases l <;> simp [chunksOfAux] at hc
  | succ n ih =>
    intro l c hc
    cases l with
    | nil => simp [chunksOfAux] at hc
    | cons a as =>
      simp only [chunksOfAux, List.mem_cons] at hc
      rcases hc with rfl | hc
      · exact List.length_take_le w (a :: as)
      · exact ih _ c hc

theorem chunksOf_flatten (w : Nat) (hw : 0 < w) (l : List Char) :
    (chunksOf w l).flatten = l :=
  chunksOfAux_flatten w hw l.length l le_rfl

theorem chunksOf_length (w : Nat) (hw : 0 < w) (l : List Char) :
    (chunksOf w l).length = (l.length + w - 1) / w :=
  chunksOfAux_length w hw l.length l le_rfl

theorem chunksOf_size (w : Nat) (l : List Char) :
    ∀ c ∈ chunksOf w l, c.length ≤ w :=
  chunksOfAux_size w l.length l

theorem trimChars_length_le (l : List Char) : (trimChars l).length ≤ l.length := by
  unfold trimChars
  calc ((l.dropWhile Char.isWhitespace).reverse.dropWhile Char.isWhitespace).reverse.length
      = ((l.dropWhile Char.isWhitespace).reverse.dropWhile Char.isWhitespace).length := by
        rw [List.length_reverse]
    _ ≤ (l.dropWhile Char.isWhitespace).reverse.length :=
        (List.dropWhile_sublist _).length_le
    _ = (l.dropWhile Char.isWhitespace).length := by rw [List.length_reverse]
    _ ≤ l.length := (List.dropWhile_sublist _).length_le

/-! ### Association-list store

Python `dict` state is modelled as an association list with in-place update:
assigning to an existing key replaces its binding where it stands, assigning a
fresh key appends.  This carries both the key set and the iteration order of a
CPython dict. -/

/-- `d[k] = v` on a dict modelled as an association list. -/
def upsertAssoc {β : Type} (c : List (String × β)) (k : String) (v : β) :
    List (String × β) :=
  match c with
  | [] => [(k, v)]
  | (k', v') :: rest => if k' = k then (k, v) :: rest else (k', v') :: upsertAssoc rest k v

/-- `d.get(k)` on a dict modelled as an association list. -/
def lookupAssoc {β : Type} (c : List (String × β)) (k : String) : Option β :=
  match c with
  | [] => none
  | (k', v') :: rest => if k' = k then some v' else lookupAssoc rest k

theorem lookupAssoc_upsert_self {β : Type} (c : List (String × β)) (k : String) (v : β) :
    lookupAssoc (upsertAssoc c k v) k = some v := by
  induction c with
  | nil => simp [upsertAssoc, lookupAssoc]
  | cons e rest ih =>
    obtain ⟨k', v'⟩ := e
    by_cases h : k' = k
    · simp [upsertAssoc, lookupAssoc, h]
    · simp [upsertAssoc, lookupAssoc, h, ih]

theorem lookupAssoc_upsert_other {β : Type} (c : List (String × β)) (k k' : String)
    (v : β) (h : k' ≠ k) : lookupAssoc (upsertAssoc c k v) k' = lookupAssoc c k' := by
  have hk : k ≠ k' := fun hh => h hh.symm
  induction c with
  | nil => simp [upsertAssoc, lookupAssoc, hk]
  | cons e rest ih =>
    obtain ⟨k0, v0⟩ := e
    by_cases h0 : k0 = k
    · subst h0
      simp [upsertAssoc, lookupAssoc, hk]
    · simp [upsertAssoc, lookupAssoc, h0, ih]

theorem upsertAssoc_keys_mem {β : Type} (c : List (String × β)) (k : String) (v : β)
    (h : k ∈ c.map Prod.fst) :
    (upsertAssoc c k v).map Prod.fst = c.map Prod.fst := by
  induction c with
  | nil => simp at h
  | cons e rest ih =>
    obtain ⟨k', v'⟩ := e
    by_cases hk : k' = k
    · simp [upsertAssoc, hk]
    · simp only [List.map_cons, List.mem_cons] at h
      rcases h with h | h
      · exact absurd h.symm hk
      · simp [upsertAssoc, hk, ih h]

theorem upsertAssoc_keys_superset {β : Type} (c : List (String × β)) (k k' : String)
    (v : β) (h : k' ∈ c.map Prod.fst) : k' ∈ (upsertAssoc c k v).map Prod.fst := by
  induction c with
  | nil => simp at h
  | cons e rest ih =>
    obtain ⟨k0, v0⟩ := e
    by_cases hk : k0 = k
    · subst hk
      simpa [upsertAssoc] using h
    · simp only [List.map_cons, List.mem_cons] at h
      rcases h with h | h
      · simp [upsertAssoc, hk, h]
      · simp [upsertAssoc, hk, ih h]

theorem upsertAssoc_mem_keys {β : Type} (c : List (String × β)) (k : String) (v : β) :
    k ∈ (upsertAssoc c k v).map Prod.fst := by
  induction c with
  | nil => simp [upsertAssoc]
  | cons e rest ih =>
    obtain ⟨k0, v0⟩ := e
    by_cases hk : k0 = k
    · simp [upsertAssoc, hk]
    · simp [upsertAssoc, hk, ih]

/-! ### FileTracker (src/Rag_test/utils/file_tracker.py)

The tracker's persistent state `self.processed_files : Dict[str, str]` maps a
file name to the MD5 hex digest of its bytes.  Hashing and the filesystem are
abstracted: a file on disk is a `PdfFile` carrying its name, the digest of its
current bytes, and the outcome of reading + extracting it (`Except`, since
`process_single_pdf` re-raises read/extraction failures). -/

/-- The change-tracking ledger `processed_files : filename → content hash`. -/
abbrev Ledger := List (String × String)

/-- One chunk produced by the extractors: `{"text": ..., "page": ..., "type": ...}`
(`kind` models the `"type"` key, `"text"` or `"image"`). -/
structure Chunk where
  text : List Char
  page : Nat
  kind : String
deriving Repr, DecidableEq

deriving instance DecidableEq for Except

/-- A candidate file in the watched directory, as the sweep sees it. -/
structure PdfFile where
  name : String
  hash : String
  extract : Except Unit (List Chunk)
deriving Repr, DecidableEq

namespace FileTracker

/-- `FileTracker._load`: the raw read of the ledger file, as
`none` = file absent, `some (.error e)` = unreadable or corrupt JSON,
`some (.ok m)` = parsed map.  Both failure shapes collapse to `{}` and the
function is total — nothing propagates to the caller. -/
def load (raw : Option (Except String Ledger)) : Ledger :=
  match raw with
  | none => []
  | some (Except.error _) => []
  | some (Except.ok m) => m

/-- `FileTracker.is_processed`: the name has a stored hash and it equals the
freshly computed hash of the file's current bytes. -/
def isProcessed (t : Ledger) (name hash : String) : Bool :=
  match lookupAssoc t name with
  | none => false
  | some h => h == hash

/-- `FileTracker.mark_processed`: recompute the hash and store it
(write-through; the `_save` I/O is outside the model). -/
def markProcessed (t : Ledger) (name hash : String) : Ledger :=
  upsertAssoc t name hash

/-- `FileTracker.get_unprocessed_files`: filter the directory enumeration
(`pdf_dir.glob("*.pdf")`, whose order is an input here because `pathlib`
yields it in arbitrary OS order) down to files not yet processed. -/
def getUnprocessedFiles (t : Ledger) (files : List PdfFile) : List PdfFile :=
  files.filter fun f => !(isProcessed t f.name f.hash)

/-- `FileTracker.clear`: reset the ledger. -/
def clear (_t : Ledger) : Ledger := []

end FileTracker

/-! ### VectorIndex records (ChromaDB collection)

`collection.add(documents, embeddings, ids, metadatas)` batches parallel
lists; we store them as association-list entries keyed by id.

Modelled from the spec: the ChromaDB collection itself is an external
library (not part of this repository's sources); §4.4 of the spec fixes its
interface — batch writes are idempotent upserts keyed by id, and `count()`
is the number of stored entries. -/

/-- Metadata attached to one record: `{"filename", "page", "type"}`. -/
structure DocMeta where
  filename : String
  page : Nat
  kind : String
deriving Repr, DecidableEq

/-- One stored vector-index entry (document text, embedding, metadata). -/
structure Record where
  document : List Char
  embedding : List ℚ
  meta : DocMeta
deriving Repr, DecidableEq

abbrev Collection := List (String × Record)

namespace Collection

/-- Modelled from the spec: idempotent batch upsert keyed by id (§4.4). -/
def add (c : Collection) (batch : List (String × Record)) : Collection :=
  batch.foldl (fun acc e => upsertAssoc acc e.1 e.2) c

/-- `collection.count()`: number of stored entries. -/
def count (c : Collection) : Nat := c.length

end Collection

/-! ### Ingestion core (src/Rag_test/main.py, process_single_pdf / upload_pdfs)

`generate_embedding` (utils/embeddings.py) raises `ValueError` on blank
input, on a missing `embedding` field, or an empty vector; per-chunk failures
are caught by the `try/except` around each loop body.  The embedding backend
is a function input `embed`. -/

/-- `{file_hash}_{idx}` document id. -/
def docId (fileHash : String) (idx : Nat) : String :=
  fileHash ++ "_" ++ toString idx

/-- The chunk loop of `process_single_pdf` / `upload_pdfs` starting at index
`idx`: strip the text, skip blanks, embed, skip failures and empty vectors,
and collect `(doc_id, record)` pairs in order. -/
def buildBatchAux (fileHash fileName : String)
    (embed : List Char → Except Unit (List ℚ)) (idx : Nat) :
    List Chunk → List (String × Record)
  | [] => []
  | ch :: rest =>
    let tail := buildBatchAux fileHash fileName embed (idx + 1) rest
    let t := trimChars ch.text
    if t = [] then tail
    else
      match embed t with
      | Except.error _ => tail
      | Except.ok emb =>
        if emb = [] then tail
        else (docId fileHash idx, ⟨t, emb, ⟨fileName, ch.page, ch.kind⟩⟩) :: tail

/-- The full `for idx, chunk in enumerate(all_chunks)` loop. -/
def buildBatch (fileHash fileName : String)
    (embed : List Char → Except Unit (List ℚ)) (chunks : List Chunk) :
    List (String × Record) :=
  buildBatchAux fileHash fileName embed 0 chunks

/-- `process_single_pdf` after reading and extracting: returns the updated
collection and the number of chunks added (0 when nothing was extracted or
nothing survived embedding). -/
def processSinglePdf (c : Collection) (fileHash fileName : String)
    (embed : List Char → Except Unit (List ℚ)) (allChunks : List Chunk) :
    Collection × Nat :=
  if allChunks.isEmpty then (c, 0)
  else
    let batch := buildBatch fileHash fileName embed allChunks
    if batch.isEmpty then (c, 0)
    else (Collection.add c batch, batch.length)

/-! ### Startup sweep (src/Rag_test/main.py, process_local_pdfs_background) -/

/-- The per-file loop of `process_local_pdfs_background`: for each file the
tracker does not recognise, hash it, run `process_single_pdf`, and — when that
returns without raising, whatever the chunk count — `mark_processed` it.  A
raising file (`extract = .error`) is logged and skipped. -/
def sweepStep (embed : List Char → Except Unit (List ℚ))
    (acc : Ledger × Collection) (f : PdfFile) : Ledger × Collection :=
  match f.extract with
  | Except.error _ => acc
  | Except.ok chunks =>
    let r := processSinglePdf acc.2 f.hash f.name embed chunks
    (FileTracker.markProcessed acc.1 f.name f.hash, r.1)

/-- The whole sweep: `get_unprocessed_files`, then the loop. -/
def processLocalPdfs (embed : List Char → Except Unit (List ℚ))
    (t : Ledger) (c : Collection) (files : List PdfFile) : Ledger × Collection :=
  (FileTracker.getUnprocessedFiles t files).foldl (sweepStep embed) (t, c)

/-! ### Upload endpoint (src/Rag_test/main.py, upload_pdfs)

An uploaded file arrives as bytes; the endpoint hashes them
(`hashlib.md5(...).hexdigest()`) and extracts chunks itself.  Note the route
never touches `file_tracker`. -/

/-- One uploaded file: name, MD5 of its bytes, extracted chunks. -/
structure UploadInput where
  filename : String
  fileHash : String
  chunks : List Chunk
deriving Repr, DecidableEq

/-- Python's `str.endswith`, written over the character lists so that it
computes by kernel reduction. -/
def strEndsWith (s suf : String) : Bool := List.isSuffixOf suf.data s.data

/-- The `for file in files` loop body of `upload_pdfs`; `Except Nat` carries
the `HTTPException` status code. -/
def uploadLoop (embed : List Char → Except Unit (List ℚ)) (c : Collection)
    (processedFiles totalChunks : Nat) :
    List UploadInput → Except Nat (Collection × Nat × Nat)
  | [] => Except.ok (c, processedFiles, totalChunks)
  | f :: rest =>
    if !(strEndsWith f.filename ".pdf") then
      uploadLoop embed c processedFiles totalChunks rest
    else if f.chunks.isEmpty then
      Except.error 400
    else
      let batch := buildBatch f.fileHash f.filename embed f.chunks
      if batch.isEmpty then uploadLoop embed c processedFiles totalChunks rest
      else
        uploadLoop embed (Collection.add c batch) (processedFiles + 1)
          (totalChunks + batch.length) rest

/-- `upload_pdfs`: runs the loop, then fails with 400 if no file was
processed.  The tracker `t` is threaded through untouched — the route has no
reference to `file_tracker`. -/
def uploadPdfs (embed : List Char → Except Unit (List ℚ)) (c : Collection)
    (t : Ledger) (files : List UploadInput) :
    Except Nat (Collection × Ledger × Nat × Nat) :=
  match uploadLoop embed c 0 0 files with
  | Except.error code => Except.error code
  | Except.ok (c', p, tot) =>
    if p = 0 then Except.error 400 else Except.ok (c', t, p, tot)

/-! ### Chat history (src/Rag_test/main.py, format_chat_history) -/

/-- A conversation turn (`Message` pydantic model). -/
structure ChatMessage where
  role : String
  content : String
deriving Repr, DecidableEq

/-- `f"{role}: {msg.content}\n"` with `role = "Human" if msg.role == "user"
else "Assistant"`. -/
def renderMsg (m : ChatMessage) : String :=
  (if m.role == "user" then "Human" else "Assistant") ++ ": " ++ m.content ++ "\n"

/-- Python's `l[-m:]` (note `l[-0:]` is the whole list). -/
def pySliceLast {α : Type} (m : Nat) (l : List α) : List α :=
  if m = 0 then l else l.drop (l.length - m)

/-- `format_chat_history`: empty history renders as `""`; otherwise a header
followed by the last `max_messages` turns in order. -/
def formatChatHistory (h : List ChatMessage) (maxMessages : Nat) : String :=
  if h.isEmpty then ""
  else
    "\n\nPrevious conversation:\n" ++
      String.join ((pySliceLast maxMessages h).map renderMsg)

/-! ### Query path (src/Rag_test/main.py, query_knowledge_base;
src/Rag_test/utils/web_search.py) -/

/-- `should_use_web_search(similarity_score, threshold)`:
`similarity_score > threshold`. -/
def shouldUseWebSearch (similarityScore threshold : ℚ) : Bool :=
  similarityScore > threshold

/-- What `search_web` hands back: a context blob and source URLs.  (All
provider failure paths inside `search_web` already return empty strings, and
the call site additionally catches exceptions — both are the `.error` case of
the `Except` input below.) -/
structure WebResult where
  context : String
  sources : List String
deriving Repr, DecidableEq

/-- The four retrieval states named by the specification. -/
inductive RetrievalState where
  | LOCAL_ONLY
  | WEB_ONLY
  | BLENDED
  | NO_CONTEXT
deriving Repr, DecidableEq

/-- The `/query` response plus observation flags: which external calls the
handler made and the two context blocks it computed. -/
structure QueryOutcome where
  answer : String
  sources : List String
  pdfContext : String
  webContext : String
  webCalled : Bool
  llmCalled : Bool
deriving Repr, DecidableEq

/-- The fixed insufficient-information answer. -/
def noInfoAnswer : String :=
  "I don't have enough information to answer this question."

/-- `m['filename'] (Page m['page'], m['type'])`. -/
def fmtSource (m : DocMeta) : String :=
  m.filename ++ " (Page " ++ toString m.page ++ ", " ++ m.kind ++ ")"

/-- The context-combination block of `query_knowledge_base` (Python string
truthiness = non-emptiness). -/
def combineContext (pdfContext webContext : String) : String :=
  if pdfContext ≠ "" ∧ webContext ≠ "" then
    "Information from uploaded documents:\n" ++ pdfContext ++
      "\n\nAdditional information from web search:\n" ++ webContext
  else if webContext ≠ "" then
    "Information from web search:\n" ++ webContext
  else pdfContext

/-- The tail of the handler: short-circuit with the fixed answer and empty
sources when the combined context is empty, otherwise call the language model
(`llmAnswer` is its reply). -/
def finalizeQuery (llmAnswer pdfContext webContext : String)
    (allSources : List String) (useWeb : Bool) : QueryOutcome :=
  if combineContext pdfContext webContext = "" then
    ⟨noInfoAnswer, [], pdfContext, webContext, useWeb, false⟩
  else
    ⟨llmAnswer, allSources, pdfContext, webContext, useWeb, true⟩

/-- The web-search block of `query_knowledge_base`: entered only when
`WEB_SEARCH_ENABLED and distances` (a non-empty list) holds; inside, the
provider runs when the average distance exceeds the threshold or there are no
documents; a provider exception leaves the defaults in place.  Returns
`(use_web, web_context, web_sources)`. -/
def webSearchStep (webSearchEnabled : Bool) (similarityThreshold : ℚ)
    (documents : List String) (distances : List ℚ)
    (webSearch : Except Unit WebResult) : Bool × String × List String :=
  if webSearchEnabled ∧ ¬ distances.isEmpty then
    let avgDistance := distances.sum / (distances.length : ℚ)
    if shouldUseWebSearch avgDistance similarityThreshold ∨ documents.isEmpty then
      match webSearch with
      | Except.ok r => (true, r.context, r.sources)
      | Except.error _ => (true, "", [])
    else (false, "", [])
  else (false, "", [])

/-- `query_knowledge_base` after the ChromaDB query returned the parallel
lists `documents`, `metadatas`, `distances` (entries of `metadatas` may be
`None`, hence `Option`).  `webSearch` is the provider's behaviour and
`llmAnswer` the generator's reply for the prompt the handler would build. -/
def queryKnowledgeBase (webSearchEnabled : Bool) (similarityThreshold : ℚ)
    (documents : List String) (metadatas : List (Option DocMeta))
    (distances : List ℚ) (webSearch : Except Unit WebResult)
    (llmAnswer : String) : QueryOutcome :=
  let pdfContext := if documents.isEmpty then "" else String.intercalate "\n\n" documents
  let pdfSources := (metadatas.filterMap id).map fmtSource
  let ws := webSearchStep webSearchEnabled similarityThreshold documents distances webSearch
  finalizeQuery llmAnswer pdfContext ws.2.1 (pdfSources ++ ws.2.2) ws.1

/-- The spec's state classification of an outcome (§4.5 step 5): which of the
two context blocks are non-empty. -/
def retrievalState (o : QueryOutcome) : RetrievalState :=
  if o.pdfContext ≠ "" then
    if o.webContext ≠ "" then RetrievalState.BLENDED else RetrievalState.LOCAL_ONLY
  else if o.webContext ≠ "" then RetrievalState.WEB_ONLY
  else RetrievalState.NO_CONTEXT

/-! ### Batch-upsert lemmas -/

theorem add_keys_superset (b : List (String × Record)) :
    ∀ (c : Collection) (k : String), k ∈ c.map Prod.fst →
      k ∈ (Collection.add c b).map Prod.fst := by
  induction b with
  | nil => intro c k h; exact h
  | cons e rest ih =>
    intro c k h
    exact ih _ _ (upsertAssoc_keys_superset c e.1 k e.2 h)

theorem add_batch_mem (b : List (String × Record)) :
    ∀ (c : Collection) (e : String × Record), e ∈ b →
      e.1 ∈ (Collection.add c b).map Prod.fst := by
  induction b with
  | nil => intro c e h; simp at h
  | cons e0 rest ih =>
    intro c e h
    rcases List.mem_cons.mp h with rfl | h
    · exact add_keys_superset rest _ _ (upsertAssoc_mem_keys c e.1 e.2)
    · exact ih _ _ h

theorem add_noop_keys (b : List (String × Record)) :
    ∀ (c : Collection), (∀ e ∈ b, e.1 ∈ c.map Prod.fst) →
      (Collection.add c b).map Prod.fst = c.map Prod.fst := by
  induction b with
  | nil => intro c _; rfl
  | cons e0 rest ih =>
    intro c h
    have h0 : e0.1 ∈ c.map Prod.fst := h e0 (List.mem_cons_self _ _)
    have hkeys : (upsertAssoc c e0.1 e0.2).map Prod.fst = c.map Prod.fst :=
      upsertAssoc_keys_mem c e0.1 e0.2 h0
    have hrest : ∀ e ∈ rest, e.1 ∈ (upsertAssoc c e0.1 e0.2).map Prod.fst := by
      intro e he
      rw [hkeys]
      exact h e (List.mem_cons_of_mem _ he)
    calc (Collection.add c (e0 :: rest)).map Prod.fst
        = (Collection.add (upsertAssoc c e0.1 e0.2) rest).map Prod.fst := rfl
      _ = (upsertAssoc c e0.1 e0.2).map Prod.fst := ih _ hrest
      _ = c.map Prod.fst := hkeys

theorem buildBatchAux_ids (fileHash fileName : String)
    (embed : List Char → Except Unit (List ℚ)) :
    ∀ (l : List Chunk) (idx : Nat) (e : String × Record),
      e ∈ buildBatchAux fileHash fileName embed idx l →
      ∃ i, idx ≤ i ∧ i < idx + l.length ∧ e.1 = docId fileHash i := by
  intro l
  induction l with
  | nil => intro idx e h; simp [buildBatchAux] at h
  | cons ch rest ih =>
    intro idx e h
    by_cases ht : trimChars ch.text = []
    · simp only [buildBatchAux, ht, if_pos] at h
      obtain ⟨i, h1, h2, h3⟩ := ih (idx + 1) e h
      exact ⟨i, by omega, by simp only [List.length_cons]; omega, h3⟩
    · simp only [buildBatchAux, ht, if_neg, not_false_iff] at h
      cases hemb : embed (trimChars ch.text) with
      | error u =>
        rw [hemb] at h
        obtain ⟨i, h1, h2, h3⟩ := ih (idx + 1) e h
        exact ⟨i, by omega, by simp only [List.length_cons]; omega, h3⟩
      | ok emb =>
        rw [hemb] at h
        by_cases hz : emb = []
        · simp only [hz, if_pos] at h
          obtain ⟨i, h1, h2, h3⟩ := ih (idx + 1) e h
          exact ⟨i, by omega, by simp only [List.length_cons]; omega, h3⟩
        · simp only [hz, if_neg, not_false_iff] at h
          rcases List.mem_cons.mp h with rfl | h
          · exact ⟨idx, le_rfl, by simp only [List.length_cons]; omega, rfl⟩
          · obtain ⟨i, h1, h2, h3⟩ := ih (idx + 1) e h
            exact ⟨i, by omega, by simp only [List.length_cons]; omega, h3⟩

/-- C2: Ingesting the same unmodified file twice is idempotent.  The second
run of `process_single_pdf` on identical bytes recomputes the identical batch
(ids `{file_hash}_{ordinal}`), so the write hits only ids that already exist:
the id set of the index, its `count()`, and the reported chunk count are all
unchanged by the second run.  (The ChromaDB write is the spec-modelled
idempotent upsert `Collection.add`.) -/
theorem spec_C2_reingest_idempotent (c : Collection) (fileHash fileName : String)
    (embed : List Char → Except Unit (List ℚ)) (chunks : List Chunk) :
    let r1 := processSinglePdf c fileHash fileName embed chunks
    let r2 := processSinglePdf r1.1 fileHash fileName embed chunks
    r2.1.map Prod.fst = r1.1.map Prod.fst ∧
    Collection.count r2.1 = Collection.count r1.1 ∧
    r2.2 = r1.2 ∧
    (∀ e ∈ buildBatch fileHash fileName embed chunks,
      ∃ i, i < chunks.length ∧ e.1 = docId fileHash i) := by
  intro r1 r2
  have hids : ∀ e ∈ buildBatch fileHash fileName embed chunks,
      ∃ i, i < chunks.length ∧ e.1 = docId fileHash i := by
    intro e he
    obtain ⟨i, _, h2, h3⟩ := buildBatchAux_ids fileHash fileName embed chunks 0 e he
    exact ⟨i, by omega, h3⟩
  by_cases hc : chunks.isEmpty
  · have : r1 = (c, 0) := by simp [r1, processSinglePdf, hc]
    have h2 : r2 = (c, 0) := by simp [r2, r1, processSinglePdf, hc]
    rw [this, h2]
    exact ⟨rfl, rfl, rfl, hids⟩
  · by_cases hb : (buildBatch fileHash fileName embed chunks).isEmpty
    · have h1 : r1 = (c, 0) := by simp [r1, processSinglePdf, hc, hb]
      have h2 : r2 = (c, 0) := by simp [r2, r1, h1, processSinglePdf, hc, hb]
      rw [h1, h2]
      exact ⟨rfl, rfl, rfl, hids⟩
    · have h1 : r1 = (Collection.add c (buildBatch fileHash fileName embed chunks),
          (buildBatch fileHash fileName embed chunks).length) := by
        simp [r1, processSinglePdf, hc, hb]
      have h2 : r2 = (Collection.add r1.1 (buildBatch fileHash fileName embed chunks),
          (buildBatch fileHash fileName embed chunks).length) := by
        simp [r2, processSinglePdf, hc, hb]
      have hmem : ∀ e ∈ buildBatch fileHash fileName embed chunks,
          e.1 ∈ r1.1.map Prod.fst := by
        intro e he
        rw [h1]
        exact add_batch_mem _ _ _ he
      have hkeys : r2.1.map Prod.fst = r1.1.map Prod.fst := by
        rw [h2]
        exact add_noop_keys _ _ hmem
      refine ⟨hkeys, ?_, ?_, hids⟩
      · have : ∀ cc : Collection, Collection.count cc = (cc.map Prod.fst).length := by
          intro cc; simp [Collection.count]
        rw [this, this, hkeys]
      · rw [h1, h2]

/-! ### Sweep-loop lemmas -/

theorem sweep_foldl_preserve (embed : List Char → Except Unit (List ℚ)) :
    ∀ (L : List PdfFile) (acc : Ledger × Collection) (n : String),
      (∀ g ∈ L, g.name ≠ n) →
      lookupAssoc (L.foldl (sweepStep embed) acc).1 n = lookupAssoc acc.1 n := by
  intro L
  induction L with
  | nil => intro acc n _; rfl
  | cons f rest ih =>
    intro acc n h
    have hrest : ∀ g ∈ rest, g.name ≠ n := fun g hg => h g (List.mem_cons_of_mem _ hg)
    have hf : f.name ≠ n := h f (List.mem_cons_self _ _)
    calc lookupAssoc ((f :: rest).foldl (sweepStep embed) acc).1 n
        = lookupAssoc (rest.foldl (sweepStep embed) (sweepStep embed acc f)).1 n := rfl
      _ = lookupAssoc (sweepStep embed acc f).1 n := ih _ n hrest
      _ = lookupAssoc acc.1 n := by
          unfold sweepStep
          cases f.extract with
          | error u => rfl
          | ok chunks =>
            exact lookupAssoc_upsert_other _ _ _ _ (fun hh => hf hh.symm)

theorem sweep_foldl_marks (embed : List Char → Except Unit (List ℚ)) :
    ∀ (L : List PdfFile) (acc : Ledger × Collection) (f : PdfFile),
      f ∈ L → (L.map PdfFile.name).Nodup → (∃ cs, f.extract = Except.ok cs) →
      lookupAssoc (L.foldl (sweepStep embed) acc).1 f.name = some f.hash := by
  intro L
  induction L with
  | nil => intro acc f h; simp at h
  | cons g rest ih =>
    intro acc f hmem hnodup hok
    simp only [List.map_cons, List.nodup_cons] at hnodup
    rcases List.mem_cons.mp hmem with rfl | hmem
    · have hrest : ∀ g' ∈ rest, g'.name ≠ f.name := by
        intro g' hg' hcontra
        exact hnodup.1 (hcontra ▸ List.mem_map_of_mem PdfFile.name hg')
      obtain ⟨cs, hcs⟩ := hok
      calc lookupAssoc ((f :: rest).foldl (sweepStep embed) acc).1 f.name
          = lookupAssoc (rest.foldl (sweepStep embed) (sweepStep embed acc f)).1 f.name := rfl
        _ = lookupAssoc (sweepStep embed acc f).1 f.name :=
            sweep_foldl_preserve embed rest _ f.name hrest
        _ = some f.hash := by
            unfold sweepStep
            rw [hcs]
            exact lookupAssoc_upsert_self _ _ _
    · exact ih _ f hmem hnodup.2 hok

/-- C10: In the startup sweep, a file whose processing completes without
raising but adds zero chunks (`process_single_pdf` returns 0) is still
`mark_processed`-ed, because the loop marks on any non-raising return: its
name maps to its current hash afterwards, any other hash for that name reads
as unprocessed (so only a byte change re-qualifies it), and no later
`get_unprocessed_files` enumeration ever includes it again. -/
theorem spec_C10_zero_chunk_marked (embed : List Char → Except Unit (List ℚ))
    (t : Ledger) (c : Collection) (files : List PdfFile) (f : PdfFile)
    (chunks : List Chunk)
    (hmem : f ∈ files)
    (hnodup : (files.map PdfFile.name).Nodup)
    (hunproc : FileTracker.isProcessed t f.name f.hash = false)
    (hok : f.extract = Except.ok chunks)
    (_hzero : (processSinglePdf c f.hash f.name embed chunks).2 = 0) :
    FileTracker.isProcessed (processLocalPdfs embed t c files).1 f.name f.hash = true ∧
    (∀ g : PdfFile, g.name = f.name → g.hash ≠ f.hash →
      FileTracker.isProcessed (processLocalPdfs embed t c files).1 g.name g.hash = false) ∧
    ∀ files2, f ∉ FileTracker.getUnprocessedFiles (processLocalPdfs embed t c files).1 files2 := by
  have hmemU : f ∈ FileTracker.getUnprocessedFiles t files := by
    simp only [FileTracker.getUnprocessedFiles, List.mem_filter]
    exact ⟨hmem, by simp [hunproc]⟩
  have hsub : List.Sublist (FileTracker.getUnprocessedFiles t files) files :=
    List.filter_sublist files
  have hnodupU : ((FileTracker.getUnprocessedFiles t files).map PdfFile.name).Nodup :=
    (hsub.map PdfFile.name).nodup hnodup
  have hkey : lookupAssoc (processLocalPdfs embed t c files).1 f.name = some f.hash :=
    sweep_foldl_marks embed _ (t, c) f hmemU hnodupU ⟨chunks, hok⟩
  have hproc : FileTracker.isProcessed (processLocalPdfs embed t c files).1 f.name f.hash = true := by
    simp [FileTracker.isProcessed, hkey]
  refine ⟨hproc, ?_, ?_⟩
  · intro g hgname hghash
    rw [hgname]
    simp only [FileTracker.isProcessed, hkey]
    exact beq_eq_false_iff_ne.mpr (fun hh => hghash hh.symm)
  · intro files2 hcontra
    simp only [FileTracker.getUnprocessedFiles, List.mem_filter] at hcontra
    rw [hproc] at hcontra
    simp at hcontra

/-- An embedding backend that embeds anything as the vector `[1]`. -/
def demoEmbed : List Char → Except Unit (List ℚ) := fun _ => Except.ok [(1 : ℚ)]

/-- A chunk whose text strips to nothing, so it is never indexed. -/
def blankChunk : Chunk := ⟨[' '], 1, "text"⟩

/-- A swept file that extracts only the blank chunk: zero indexable chunks. -/
def demoZeroFile : PdfFile := ⟨"empty.pdf", "hash0", Except.ok [blankChunk]⟩

/-- Witness for C10 at a concrete zero-chunk file. -/
theorem spec_C10_zero_chunk_marked_witness :
    FileTracker.isProcessed (processLocalPdfs demoEmbed [] [] [demoZeroFile]).1
      "empty.pdf" "hash0" = true :=
  (spec_C10_zero_chunk_marked demoEmbed [] [] [demoZeroFile] demoZeroFile [blankChunk]
    (by decide) (by decide) (by decide) (by decide) (by decide)).1

/-- C3 (amended): only the startup sweep invokes `mark_processed`: a file the
sweep ingests without raising has `is_processed` true afterwards, while the
`/upload-pdfs` route never touches the tracker — any successful upload returns
the ledger exactly as it was. -/
theorem spec_C3_amended_tracking :
    (∀ (embed : List Char → Except Unit (List ℚ)) (t : Ledger) (c : Collection)
        (files : List PdfFile) (f : PdfFile) (chunks : List Chunk),
      f ∈ files → (files.map PdfFile.name).Nodup →
      FileTracker.isProcessed t f.name f.hash = false →
      f.extract = Except.ok chunks →
      FileTracker.isProcessed (processLocalPdfs embed t c files).1 f.name f.hash = true) ∧
    (∀ (embed : List Char → Except Unit (List ℚ)) (c : Collection) (t : Ledger)
        (files : List UploadInput) (r : Collection × Ledger × Nat × Nat),
      uploadPdfs embed c t files = Except.ok r → r.2.1 = t) := by
  constructor
  · intro embed t c files f chunks hmem hnodup hunproc hok
    have hmemU : f ∈ FileTracker.getUnprocessedFiles t files := by
      simp only [FileTracker.getUnprocessedFiles, List.mem_filter]
      exact ⟨hmem, by simp [hunproc]⟩
    have hsub : List.Sublist (FileTracker.getUnprocessedFiles t files) files :=
      List.filter_sublist files
    have hnodupU : ((FileTracker.getUnprocessedFiles t files).map PdfFile.name).Nodup :=
      (hsub.map PdfFile.name).nodup hnodup
    have hkey : lookupAssoc (processLocalPdfs embed t c files).1 f.name = some f.hash :=
      sweep_foldl_marks embed _ (t, c) f hmemU hnodupU ⟨chunks, hok⟩
    simp [FileTracker.isProcessed, hkey]
  · intro embed c t files r h
    unfold uploadPdfs at h
    cases hU : uploadLoop embed c 0 0 files with
    | error code => rw [hU] at h; exact absurd h (by simp)
    | ok res =>
      obtain ⟨c', p, tot⟩ := res
      rw [hU] at h
      simp only [] at h
      by_cases hp : p = 0
      · simp [hp] at h
      · simp only [hp, if_false, if_neg, not_false_iff] at h
        have := Except.ok.inj h
        rw [← this]

/-- A well-formed uploaded PDF with one embeddable chunk. -/
def demoUpload : UploadInput := ⟨"doc.pdf", "hasha", [⟨['h', 'i'], 1, "text"⟩]⟩

/-- The collection produced by uploading `demoUpload` into an empty index. -/
def demoUploadCol : Collection :=
  [("hasha_0", ⟨['h', 'i'], [(1 : ℚ)], ⟨"doc.pdf", 1, "text"⟩⟩)]

/-- Witness for C3 (amended): a concrete sweep marks its file, and a concrete
successful upload hands the ledger back unchanged. -/
theorem spec_C3_amended_tracking_witness :
    FileTracker.isProcessed (processLocalPdfs demoEmbed [] [] [demoZeroFile]).1
      "empty.pdf" "hash0" = true ∧
    ((demoUploadCol, ([] : Ledger), 1, 1) : Collection × Ledger × Nat × Nat).2.1 =
      ([] : Ledger) :=
  ⟨spec_C3_amended_tracking.1 demoEmbed [] [] [demoZeroFile] demoZeroFile [blankChunk]
      (by decide) (by decide) (by decide) (by decide),
   spec_C3_amended_tracking.2 demoEmbed [] [] [demoUpload]
      (demoUploadCol, [], 1, 1) (by decide)⟩

/-- Counterexample for C3 as stated: the upload entry point ingests
`demoUpload` successfully (one file, one chunk), yet the tracker — unchanged,
still the empty ledger — reports the file unprocessed. -/
theorem spec_C3_upload_not_tracked_cex :
    uploadPdfs demoEmbed [] [] [demoUpload] =
      Except.ok (demoUploadCol, ([] : Ledger), 1, 1) ∧
    FileTracker.isProcessed [] "doc.pdf" "hasha" = false := by
  constructor
  · decide
  · rfl

/-! ### Query-path lemmas -/

theorem finalizeQuery_pdfContext (a p w : String) (s : List String) (u : Bool) :
    (finalizeQuery a p w s u).pdfContext = p := by
  unfold finalizeQuery
  split <;> rfl

theorem finalizeQuery_webContext (a p w : String) (s : List String) (u : Bool) :
    (finalizeQuery a p w s u).webContext = w := by
  unfold finalizeQuery
  split <;> rfl

theorem finalizeQuery_webCalled (a p w : String) (s : List String) (u : Bool) :
    (finalizeQuery a p w s u).webCalled = u := by
  unfold finalizeQuery
  split <;> rfl

theorem finalizeQuery_empty (a : String) (s : List String) (u : Bool) :
    finalizeQuery a "" "" s u =
      ⟨noInfoAnswer, [], "", "", u, false⟩ := by
  unfold finalizeQuery combineContext
  simp

theorem webSearchStep_gate (θ : ℚ) (documents : List String) (distances : List ℚ)
    (ws : Except Unit WebResult)
    (hne : distances.isEmpty = false) (hdoc : documents.isEmpty = false) :
    (webSearchStep true θ documents distances ws).1 =
      decide (distances.sum / (distances.length : ℚ) > θ) ∧
    (webSearchStep true θ documents distances ws).2.1 =
      (if distances.sum / (distances.length : ℚ) > θ then
        (match ws with | Except.ok r => r.context | Except.error _ => "")
      else "") := by
  unfold webSearchStep shouldUseWebSearch
  by_cases h : distances.sum / (distances.length : ℚ) > θ
  · cases ws <;> simp [hne, hdoc, h]
  · simp [hne, hdoc, h]

/-- C5: with web search enabled and a non-empty distances list (documents and
distances are parallel lists from the index), the web branch runs exactly
when the mean distance exceeds the threshold; no web context exists without a
call, and a call yields exactly what the provider returned. -/
theorem spec_C5_web_gate (documents : List String) (metadatas : List (Option DocMeta))
    (distances : List ℚ) (ws : Except Unit WebResult) (llm : String)
    (hd : distances ≠ []) (hlen : documents.length = distances.length) :
    let o := queryKnowledgeBase WEB_SEARCH_ENABLED SIMILARITY_THRESHOLD documents
      metadatas distances ws llm
    o.webCalled = decide (distances.sum / (distances.length : ℚ) > SIMILARITY_THRESHOLD) ∧
    (o.webCalled = false → o.webContext = "") ∧
    (o.webCalled = true → o.webContext =
      (match ws with | Except.ok r => r.context | Except.error _ => "")) := by
  intro o
  have hne : distances.isEmpty = false := by
    cases distances with
    | nil => exact absurd rfl hd
    | cons a as => rfl
  have hdocne : documents ≠ [] := by
    intro h0
    rw [h0] at hlen
    exact hd (List.eq_nil_of_length_eq_zero hlen.symm)
  have hdoc : documents.isEmpty = false := by
    cases documents with
    | nil => exact absurd rfl hdocne
    | cons a as => rfl
  obtain ⟨hgate, hctx⟩ := webSearchStep_gate SIMILARITY_THRESHOLD documents distances ws hne hdoc
  have hCalled : o.webCalled =
      (webSearchStep true SIMILARITY_THRESHOLD documents distances ws).1 :=
    finalizeQuery_webCalled _ _ _ _ _
  have hCtx : o.webContext =
      (webSearchStep true SIMILARITY_THRESHOLD documents distances ws).2.1 :=
    finalizeQuery_webContext _ _ _ _ _
  refine ⟨by rw [hCalled, hgate], ?_, ?_⟩
  · intro hF
    rw [hCalled, hgate] at hF
    rw [hCtx, hctx, if_neg (by simpa using hF)]
  · intro hT
    rw [hCalled, hgate] at hT
    rw [hCtx, hctx, if_pos (by simpa using hT)]

/-- Witness for C5: `[0.1, 0.2]` against threshold `0.7` makes no web call
and the state is LOCAL_ONLY; `[0.9, 0.95]` triggers the call and, the
provider succeeding with non-empty context, the state is BLENDED. -/
theorem spec_C5_web_gate_witness :
    ([(1 : ℚ)/10, 2/10] ≠ ([] : List ℚ) ∧
      (["alpha", "beta"] : List String).length = [(1 : ℚ)/10, 2/10].length ∧
      (queryKnowledgeBase WEB_SEARCH_ENABLED SIMILARITY_THRESHOLD ["alpha", "beta"] []
        [(1 : ℚ)/10, 2/10] (Except.ok ⟨"web stuff", ["u1"]⟩) "ans").webCalled =
        decide ([(1 : ℚ)/10, 2/10].sum / (([(1 : ℚ)/10, 2/10].length : Nat) : ℚ) >
          SIMILARITY_THRESHOLD)) ∧
    (queryKnowledgeBase WEB_SEARCH_ENABLED SIMILARITY_THRESHOLD ["alpha", "beta"] []
      [(1 : ℚ)/10, 2/10] (Except.ok ⟨"web stuff", ["u1"]⟩) "ans").webCalled = false ∧
    retrievalState (queryKnowledgeBase WEB_SEARCH_ENABLED SIMILARITY_THRESHOLD
      ["alpha", "beta"] [] [(1 : ℚ)/10, 2/10] (Except.ok ⟨"web stuff", ["u1"]⟩) "ans") =
      RetrievalState.LOCAL_ONLY ∧
    (queryKnowledgeBase WEB_SEARCH_ENABLED SIMILARITY_THRESHOLD ["alpha", "beta"] []
      [(9 : ℚ)/10, 19/20] (Except.ok ⟨"web stuff", ["u1"]⟩) "ans").webCalled = true ∧
    retrievalState (queryKnowledgeBase WEB_SEARCH_ENABLED SIMILARITY_THRESHOLD
      ["alpha", "beta"] [] [(9 : ℚ)/10, 19/20] (Except.ok ⟨"web stuff", ["u1"]⟩) "ans") =
      RetrievalState.BLENDED := by
  have havgA : ([(1 : ℚ)/10, 2/10].sum / (([(1 : ℚ)/10, 2/10].length : Nat) : ℚ)) = 3/20 := by
    simp [List.sum_cons, List.sum_nil]
    norm_num
  have havgB : ([(9 : ℚ)/10, 19/20].sum / (([(9 : ℚ)/10, 19/20].length : Nat) : ℚ)) = 37/40 := by
    simp [List.sum_cons, List.sum_nil]
    norm_num
  have hwsA : webSearchStep true SIMILARITY_THRESHOLD ["alpha", "beta"]
      [(1 : ℚ)/10, 2/10] (Except.ok ⟨"web stuff", ["u1"]⟩) = (false, "", []) := by
    unfold webSearchStep shouldUseWebSearch
    simp only [List.isEmpty_cons, havgA]
    rw [if_pos (by simp), if_neg]
    simp [SIMILARITY_THRESHOLD]
    norm_num
  have hwsB : webSearchStep true SIMILARITY_THRESHOLD ["alpha", "beta"]
      [(9 : ℚ)/10, 19/20] (Except.ok ⟨"web stuff", ["u1"]⟩) = (true, "web stuff", ["u1"]) := by
    unfold webSearchStep shouldUseWebSearch
    simp only [List.isEmpty_cons, havgB]
    rw [if_pos (by simp), if_pos]
    left
    simp [SIMILARITY_THRESHOLD]
    norm_num
  have hoA : queryKnowledgeBase WEB_SEARCH_ENABLED SIMILARITY_THRESHOLD ["alpha", "beta"] []
      [(1 : ℚ)/10, 2/10] (Except.ok ⟨"web stuff", ["u1"]⟩) "ans" =
      finalizeQuery "ans" (String.intercalate "\n\n" ["alpha", "beta"]) "" [] false := by
    simp only [queryKnowledgeBase, WEB_SEARCH_ENABLED]
    rw [hwsA]
    rfl
  have hoB : queryKnowledgeBase WEB_SEARCH_ENABLED SIMILARITY_THRESHOLD ["alpha", "beta"] []
      [(9 : ℚ)/10, 19/20] (Except.ok ⟨"web stuff", ["u1"]⟩) "ans" =
      finalizeQuery "ans" (String.intercalate "\n\n" ["alpha", "beta"]) "web stuff"
        ["u1"] true := by
    simp only [queryKnowledgeBase, WEB_SEARCH_ENABLED]
    rw [hwsB]
    rfl
  refine ⟨⟨by decide, by decide,
      (spec_C5_web_gate ["alpha", "beta"] [] [(1 : ℚ)/10, 2/10]
        (Except.ok ⟨"web stuff", ["u1"]⟩) "ans" (by decide) (by decide)).1⟩,
    ?_, ?_, ?_, ?_⟩
  · rw [hoA, finalizeQuery_webCalled]
  · rw [hoA]; decide
  · rw [hoB, finalizeQuery_webCalled]
  · rw [hoB]; decide

/-- C6: whenever both the local context block and the web context block are
empty, the handler returns the fixed insufficient-information answer with an
empty sources list and never calls the language model. -/
theorem spec_C6_empty_context_short_circuit (en : Bool) (θ : ℚ)
    (documents : List String) (metadatas : List (Option DocMeta))
    (distances : List ℚ) (ws : Except Unit WebResult) (llm : String)
    (h1 : (queryKnowledgeBase en θ documents metadatas distances ws llm).pdfContext = "")
    (h2 : (queryKnowledgeBase en θ documents metadatas distances ws llm).webContext = "") :
    (queryKnowledgeBase en θ documents metadatas distances ws llm).answer = noInfoAnswer ∧
    (queryKnowledgeBase en θ documents metadatas distances ws llm).sources = [] ∧
    (queryKnowledgeBase en θ documents metadatas distances ws llm).llmCalled = false := by
  have e : queryKnowledgeBase en θ documents metadatas distances ws llm =
      finalizeQuery llm
        (if documents.isEmpty then "" else String.intercalate "\n\n" documents)
        (webSearchStep en θ documents distances ws).2.1
        (((metadatas.filterMap id).map fmtSource) ++
          (webSearchStep en θ documents distances ws).2.2)
        (webSearchStep en θ documents distances ws).1 := rfl
  rw [e] at h1 h2 ⊢
  rw [finalizeQuery_pdfContext] at h1
  rw [finalizeQuery_webContext] at h2
  rw [h1, h2, finalizeQuery_empty]
  exact ⟨rfl, rfl, rfl⟩

/-- Witness for C6 at the all-empty query. -/
theorem spec_C6_empty_context_short_circuit_witness :
    (queryKnowledgeBase true SIMILARITY_THRESHOLD [] [] []
      (Except.ok ⟨"", []⟩) "unused").pdfContext = "" ∧
    ((queryKnowledgeBase true SIMILARITY_THRESHOLD [] [] []
        (Except.ok ⟨"", []⟩) "unused").answer = noInfoAnswer ∧
      (queryKnowledgeBase true SIMILARITY_THRESHOLD [] [] []
        (Except.ok ⟨"", []⟩) "unused").sources = [] ∧
      (queryKnowledgeBase true SIMILARITY_THRESHOLD [] [] []
        (Except.ok ⟨"", []⟩) "unused").llmCalled = false) :=
  ⟨by decide,
   spec_C6_empty_context_short_circuit true SIMILARITY_THRESHOLD [] [] []
     (Except.ok ⟨"", []⟩) "unused" (by decide) (by decide)⟩

/-- C1 (code bug): a query against an empty index returns zero neighbors, so
`distances == []` and the guard `if WEB_SEARCH_ENABLED and distances:` is
false — the web provider is never invoked even though web search is enabled
and the provider (here) would return non-empty context.  The handler falls
straight through to the NO_CONTEXT short-circuit, contradicting the spec's
"proceed directly to the web-search branch" (the dead `or not documents`
condition inside the guard shows the intended behaviour). -/
theorem spec_C1_web_branch_skipped_on_empty_index :
    (queryKnowledgeBase WEB_SEARCH_ENABLED SIMILARITY_THRESHOLD [] [] []
      (Except.ok ⟨"Fresh web context about the question", ["https://example.com"]⟩)
      "generated answer").webCalled = false ∧
    (queryKnowledgeBase WEB_SEARCH_ENABLED SIMILARITY_THRESHOLD [] [] []
      (Except.ok ⟨"Fresh web context about the question", ["https://example.com"]⟩)
      "generated answer").llmCalled = false ∧
    (queryKnowledgeBase WEB_SEARCH_ENABLED SIMILARITY_THRESHOLD [] [] []
      (Except.ok ⟨"Fresh web context about the question", ["https://example.com"]⟩)
      "generated answer").answer = noInfoAnswer ∧
    (queryKnowledgeBase WEB_SEARCH_ENABLED SIMILARITY_THRESHOLD [] [] []
      (Except.ok ⟨"Fresh web context about the question", ["https://example.com"]⟩)
      "generated answer").sources = [] ∧
    retrievalState (queryKnowledgeBase WEB_SEARCH_ENABLED SIMILARITY_THRESHOLD [] [] []
      (Except.ok ⟨"Fresh web context about the question", ["https://example.com"]⟩)
      "generated answer") = RetrievalState.NO_CONTEXT := by
  exact ⟨by decide, by decide, by decide, by decide, by decide⟩

/-- C4 (amended): `get_unprocessed_files` returns exactly the files whose
`is_processed` is false, in the order of the underlying directory enumeration
(a sublist of it); it applies no sort of its own, so the output order is only
as deterministic as `pathlib`'s arbitrary-order `glob`. -/
theorem spec_C4_amended_filter (t : Ledger) (files : List PdfFile) :
    (∀ f, f ∈ FileTracker.getUnprocessedFiles t files ↔
        f ∈ files ∧ FileTracker.isProcessed t f.name f.hash = false) ∧
    List.Sublist (FileTracker.getUnprocessedFiles t files) files := by
  constructor
  · intro f
    simp [FileTracker.getUnprocessedFiles, List.mem_filter]
  · exact List.filter_sublist files

/-- A directory enumeration that yields `b.pdf` before `a.pdf` (pathlib glob
order is OS-arbitrary, not sorted). -/
def demoDirListing : List PdfFile :=
  [⟨"b.pdf", "hb", Except.ok []⟩, ⟨"a.pdf", "ha", Except.ok []⟩]

/-- Counterexample for C4 as stated: on this enumeration the function returns
`["b.pdf", "a.pdf"]` even though `"a.pdf"` precedes `"b.pdf"` lexicographically
— the output is not in lexicographic order by path; no sort is applied. -/
theorem spec_C4_order_cex :
    (FileTracker.getUnprocessedFiles [] demoDirListing).map PdfFile.name =
      ["b.pdf", "a.pdf"] ∧
    ("a.pdf".data < "b.pdf".data) := by
  constructor
  · rfl
  · decide

/-- C9: loading the ledger never raises: an absent file, an unreadable file,
or corrupt JSON all degrade to the empty ledger, under which every file reads
as unprocessed and `get_unprocessed_files` returns the full enumeration (a
full re-index). -/
theorem spec_C9_corrupt_ledger (e : String) (files : List PdfFile)
    (name hash : String) :
    FileTracker.load (some (Except.error e)) = [] ∧
    FileTracker.load none = [] ∧
    FileTracker.isProcessed (FileTracker.load (some (Except.error e))) name hash = false ∧
    FileTracker.getUnprocessedFiles (FileTracker.load (some (Except.error e))) files =
      files := by
  refine ⟨rfl, rfl, rfl, ?_⟩
  simp [FileTracker.load, FileTracker.getUnprocessedFiles, FileTracker.isProcessed,
    lookupAssoc]

/-- C7 (amended): for a page whose text is non-blank, the window pass slices
it into exactly `⌈L/W⌉` windows of at most `W` characters whose concatenation
is the original text; each emitted chunk is a non-blank window stripped (so
at most `W` characters and at most `⌈L/W⌉` chunks) — all-whitespace windows
are dropped, which is why the emitted count can fall below `⌈L/W⌉`. -/
theorem spec_C7_amended_chunking (text : List Char) (hnb : trimChars text ≠ []) :
    (chunksOf CHUNK_SIZE text).length = (text.length + CHUNK_SIZE - 1) / CHUNK_SIZE ∧
    (∀ c ∈ chunksOf CHUNK_SIZE text, c.length ≤ CHUNK_SIZE) ∧
    (chunksOf CHUNK_SIZE text).flatten = text ∧
    extractPageChunks text =
      (chunksOf CHUNK_SIZE text).filterMap
        (fun w => if trimChars w = [] then none else some (trimChars w)) ∧
    (extractPageChunks text).length ≤ (text.length + CHUNK_SIZE - 1) / CHUNK_SIZE ∧
    ∀ c ∈ extractPageChunks text, c.length ≤ CHUNK_SIZE := by
  have hw : 0 < CHUNK_SIZE := by decide
  have heq : extractPageChunks text =
      (chunksOf CHUNK_SIZE text).filterMap
        (fun w => if trimChars w = [] then none else some (trimChars w)) := by
    simp [extractPageChunks, hnb]
  refine ⟨chunksOf_length _ hw _, chunksOf_size _ _, chunksOf_flatten _ hw _, heq, ?_, ?_⟩
  · rw [heq, ← chunksOf_length _ hw]
    exact List.length_filterMap_le _ _
  · intro c hc
    rw [heq] at hc
    simp only [List.mem_filterMap] at hc
    obtain ⟨w, hw1, hw2⟩ := hc
    by_cases h : trimChars w = []
    · simp [h] at hw2
    · simp only [h, if_neg, not_false_iff, Option.some.injEq] at hw2
      rw [← hw2]
      exact le_trans (trimChars_length_le w) (chunksOf_size _ _ w hw1)

/-- A short non-blank page text. -/
def demoPageText : List Char :=
  ['h', 'e', 'l', 'l', 'o', ' ', 'w', 'o', 'r', 'l', 'd']

/-- Witness for C7 (amended) on a concrete 11-character page. -/
theorem spec_C7_amended_chunking_witness :
    trimChars demoPageText ≠ [] ∧
    ((chunksOf CHUNK_SIZE demoPageText).length =
        (demoPageText.length + CHUNK_SIZE - 1) / CHUNK_SIZE ∧
      (∀ c ∈ chunksOf CHUNK_SIZE demoPageText, c.length ≤ CHUNK_SIZE) ∧
      (chunksOf CHUNK_SIZE demoPageText).flatten = demoPageText ∧
      extractPageChunks demoPageText =
        (chunksOf CHUNK_SIZE demoPageText).filterMap
          (fun w => if trimChars w = [] then none else some (trimChars w)) ∧
      (extractPageChunks demoPageText).length ≤
        (demoPageText.length + CHUNK_SIZE - 1) / CHUNK_SIZE ∧
      ∀ c ∈ extractPageChunks demoPageText, c.length ≤ CHUNK_SIZE) :=
  ⟨by decide, spec_C7_amended_chunking demoPageText (by decide)⟩

/-- Counterexample for C7 as stated: a one-character all-whitespace page has
`L = 1 > 0` and `⌈L/W⌉ = 1`, yet the pass emits zero windows — the page-level
blank guard (and window stripping) drop whitespace-only content. -/
theorem spec_C7_blank_page_cex :
    extractPageChunks [' '] = [] ∧
    (List.length [' '] + CHUNK_SIZE - 1) / CHUNK_SIZE = 1 := by
  constructor
  · decide
  · decide

/-- C8: the rendered history block contains exactly the last
`min(len(history), MAX_HISTORY)` turns, oldest-first (a suffix of the
history), after the fixed header. -/
theorem spec_C8_history_truncation (h : List ChatMessage) (hne : h ≠ []) :
    formatChatHistory h MAX_CHAT_HISTORY =
      "\n\nPrevious conversation:\n" ++
        String.join ((h.drop (h.length - MAX_CHAT_HISTORY)).map renderMsg) ∧
    (h.drop (h.length - MAX_CHAT_HISTORY)).length = min h.length MAX_CHAT_HISTORY ∧
    List.IsSuffix (h.drop (h.length - MAX_CHAT_HISTORY)) h := by
  refine ⟨?_, ?_, List.drop_suffix _ _⟩
  · have hne2 : h.isEmpty = false := by
      cases h with
      | nil => exact absurd rfl hne
      | cons a as => rfl
    simp [formatChatHistory, hne2, pySliceLast, MAX_CHAT_HISTORY]
  · simp only [List.length_drop, MAX_CHAT_HISTORY]
    omega

/-- A ten-turn conversation. -/
def demoHistory : List ChatMessage :=
  [⟨"user", "m1"⟩, ⟨"assistant", "m2"⟩, ⟨"user", "m3"⟩, ⟨"assistant", "m4"⟩,
   ⟨"user", "m5"⟩, ⟨"assistant", "m6"⟩, ⟨"user", "m7"⟩, ⟨"assistant", "m8"⟩,
   ⟨"user", "m9"⟩, ⟨"assistant", "m10"⟩]

/-- Witness for C8: with 10 prior turns and `MAX_HISTORY = 6`, exactly the
most recent six turns (`m5 .. m10`) appear, oldest-first. -/
theorem spec_C8_history_truncation_witness :
    demoHistory ≠ [] ∧
    (formatChatHistory demoHistory MAX_CHAT_HISTORY =
      "\n\nPrevious conversation:\n" ++
        String.join ((demoHistory.drop (demoHistory.length - MAX_CHAT_HISTORY)).map
          renderMsg) ∧
      (demoHistory.drop (demoHistory.length - MAX_CHAT_HISTORY)).length =
        min demoHistory.length MAX_CHAT_HISTORY ∧
      List.IsSuffix (demoHistory.drop (demoHistory.length - MAX_CHAT_HISTORY))
        demoHistory) ∧
    demoHistory.drop (demoHistory.length - MAX_CHAT_HISTORY) =
      [⟨"user", "m5"⟩, ⟨"assistant", "m6"⟩, ⟨"user", "m7"⟩, ⟨"assistant", "m8"⟩,
       ⟨"user", "m9"⟩, ⟨"assistant", "m10"⟩] :=
  ⟨by decide, spec_C8_history_truncation demoHistory (by decide), by decide⟩
